import Mathlib

/-
Shallow embedding of `selfdrive/controls/radard.py` (radar/vision lead fusion core).

Conventions:
* Python floats are embedded as exact rationals (`ℚ`); no claim under scrutiny
  depends on floating-point rounding.
* Python dicts are embedded as association lists (`List (κ × α)`) with
  insert-overwrite-in-place semantics (`dinsert`), matching CPython's
  insertion-ordered dictionaries.
* Fallible Python code (IndexError on `xs[-1]`/`xs[0]`, KeyError on a missing
  dict key, `max`/`min` on an empty sequence, attribute access on `None`) is
  embedded in `Option`: `none` means the call raises.
* `math.exp` and `math.sqrt` are transcendental/irrational functions from the
  Python standard library (external to the repository); the embedding abstracts
  each as an explicit function argument (`mexp`, `msqrt`), since no claim
  depends on their values.
-/

namespace Radard

/-! ### Python dict as an association list -/

/-- Lookup in a Python-style dict: first binding with the given key. -/
def dget {κ α : Type} [DecidableEq κ] : List (κ × α) → κ → Option α
  | [], _ => none
  | (k', v) :: rest, k => if k' = k then some v else dget rest k

/-- Assignment `m[k] = v` in a Python-style dict: overwrite in place if the key
is present (keeping its position, as CPython does), else append at the end. -/
def dinsert {κ α : Type} [DecidableEq κ] : List (κ × α) → κ → α → List (κ × α)
  | [], k, v => [(k, v)]
  | (k', v') :: rest, k, v =>
      if k' = k then (k, v) :: rest else (k', v') :: dinsert rest k v

/-- Key list of a Python-style dict (`list(m.keys())`), in insertion order. -/
def dkeys {κ α : Type} (m : List (κ × α)) : List κ := m.map Prod.fst

@[simp] theorem dget_nil {κ α : Type} [DecidableEq κ] (k : κ) :
    dget ([] : List (κ × α)) k = none := rfl

@[simp] theorem dget_cons {κ α : Type} [DecidableEq κ] (k' k : κ) (v : α) (m : List (κ × α)) :
    dget ((k', v) :: m) k = if k' = k then some v else dget m k := rfl

theorem dget_dinsert_self {κ α : Type} [DecidableEq κ] (m : List (κ × α)) (k : κ) (v : α) :
    dget (dinsert m k v) k = some v := by
  induction m with
  | nil => simp [dinsert, dget]
  | cons p rest ih =>
    obtain ⟨k', v'⟩ := p
    by_cases h : k' = k
    · simp [dinsert, dget, h]
    · simp [dinsert, dget, h, ih]

theorem dget_dinsert_ne {κ α : Type} [DecidableEq κ] (m : List (κ × α)) (k k' : κ) (v : α)
    (h : k' ≠ k) : dget (dinsert m k v) k' = dget m k' := by
  have hne : k ≠ k' := fun hh => h hh.symm
  induction m with
  | nil =>
    simp only [dinsert, dget_cons, dget_nil]
    rw [if_neg hne]
  | cons p rest ih =>
    obtain ⟨k0, v0⟩ := p
    by_cases h0 : k0 = k
    · subst h0
      rw [show dinsert ((k0, v0) :: rest) k0 v = (k0, v) :: rest from by simp [dinsert]]
      simp only [dget_cons]
      rw [if_neg hne, if_neg hne]
    · simp only [dinsert, if_neg h0, dget_cons]
      by_cases h1 : k0 = k'
      · simp [h1]
      · simp [h1, ih]

theorem mem_dkeys_dinsert {κ α : Type} [DecidableEq κ] (m : List (κ × α)) (k a : κ) (v : α) :
    a ∈ dkeys (dinsert m k v) ↔ a = k ∨ a ∈ dkeys m := by
  induction m with
  | nil => simp [dinsert, dkeys]
  | cons p rest ih =>
    obtain ⟨k0, v0⟩ := p
    by_cases h0 : k0 = k
    · subst h0
      rw [show dinsert ((k0, v0) :: rest) k0 v = (k0, v) :: rest from by simp [dinsert]]
      simp only [dkeys, List.map_cons, List.mem_cons]
      tauto
    · simp only [dinsert, if_neg h0, dkeys, List.map_cons, List.mem_cons] at ih ⊢
      constructor
      · rintro (h | h)
        · exact Or.inr (Or.inl h)
        · rcases ih.mp h with h | h
          · exact Or.inl h
          · exact Or.inr (Or.inr h)
      · rintro (h | h | h)
        · exact Or.inr (ih.mpr (Or.inl h))
        · exact Or.inl h
        · exact Or.inr (ih.mpr (Or.inr h))

theorem dget_isSome_iff_mem_dkeys {κ α : Type} [DecidableEq κ] (m : List (κ × α)) (k : κ) :
    (dget m k).isSome ↔ k ∈ dkeys m := by
  induction m with
  | nil => simp [dget, dkeys]
  | cons p rest ih =>
    obtain ⟨k0, v0⟩ := p
    simp only [dget_cons, dkeys, List.map_cons, List.mem_cons]
    by_cases h0 : k0 = k
    · simp [h0]
    · simp only [if_neg h0]
      rw [ih]
      constructor
      · intro h
        exact Or.inr h
      · rintro (h | h)
        · exact absurd h.symm h0
        · exact h

theorem mem_of_dget_eq_some {κ α : Type} [DecidableEq κ] (m : List (κ × α)) (k : κ) (v : α)
    (h : dget m k = some v) : (k, v) ∈ m := by
  induction m with
  | nil => simp [dget] at h
  | cons p rest ih =>
    obtain ⟨k0, v0⟩ := p
    by_cases h0 : k0 = k
    · subst h0
      simp [dget] at h
      simp [h]
    · simp only [dget_cons, if_neg h0] at h
      exact List.mem_cons_of_mem _ (ih h)

theorem length_dinsert_le {κ α : Type} [DecidableEq κ] (m : List (κ × α)) (k : κ) (v : α) :
    (dinsert m k v).length ≤ m.length + 1 := by
  induction m with
  | nil => simp [dinsert]
  | cons p rest ih =>
    obtain ⟨k0, v0⟩ := p
    by_cases h0 : k0 = k
    · simp [dinsert, h0]
    · simpa [dinsert, h0] using ih

/-! ### Python `max(xs, key=f)` and `min(xs, key=f)`

CPython's `max`/`min` raise on an empty sequence and keep the earliest extremum
on ties (a later element replaces the champion only on a strict comparison). -/

/-- Python `max(xs, key=f)`: `none` models the `ValueError` on an empty input. -/
def pymax {α : Type} (f : α → ℚ) : List α → Option α
  | [] => none
  | x :: xs => some (xs.foldl (fun best c => if f c > f best then c else best) x)

/-- Python `min(xs, key=f)`: `none` models the `ValueError` on an empty input. -/
def pymin {α : Type} (f : α → ℚ) : List α → Option α
  | [] => none
  | x :: xs => some (xs.foldl (fun best c => if f c < f best then c else best) x)

theorem pymax_isSome {α : Type} (f : α → ℚ) (l : List α) (h : l ≠ []) :
    (pymax f l).isSome := by
  cases l with
  | nil => exact absurd rfl h
  | cons x xs => simp [pymax]

theorem pymin_foldl_spec {α : Type} (f : α → ℚ) (xs : List α) (x : α) :
    (xs.foldl (fun best c => if f c < f best then c else best) x) ∈ x :: xs ∧
      ∀ c ∈ x :: xs, f (xs.foldl (fun best c => if f c < f best then c else best) x) ≤ f c := by
  induction xs generalizing x with
  | nil => simp
  | cons y ys ih =>
    simp only [List.foldl_cons]
    by_cases h : f y < f x
    · simp only [if_pos h]
      obtain ⟨hmem, hle⟩ := ih y
      refine ⟨List.mem_cons_of_mem x hmem, ?_⟩
      intro c hc
      rcases List.mem_cons.mp hc with hcx | hc'
      · subst hcx
        exact le_trans (hle y (List.mem_cons_self y ys)) (le_of_lt h)
      · exact hle c hc'
    · simp only [if_neg h]
      obtain ⟨hmem, hle⟩ := ih x
      refine ⟨?_, ?_⟩
      · rcases List.mem_cons.mp hmem with h1 | h1
        · rw [h1]
          exact List.mem_cons_self x (y :: ys)
        · exact List.mem_cons_of_mem x (List.mem_cons_of_mem y h1)
      · intro c hc
        rcases List.mem_cons.mp hc with hcx | hc'
        · subst hcx
          exact hle c (List.mem_cons_self c ys)
        · rcases List.mem_cons.mp hc' with hcy | hc2
          · subst hcy
            exact le_trans (hle x (List.mem_cons_self x ys)) (le_of_not_lt h)
          · exact hle c (List.mem_cons_of_mem x hc2)

theorem pymin_spec {α : Type} (f : α → ℚ) (l : List α) (m : α)
    (h : pymin f l = some m) : m ∈ l ∧ ∀ c ∈ l, f m ≤ f c := by
  cases l with
  | nil => simp [pymin] at h
  | cons x xs =>
    simp only [pymin, Option.some.injEq] at h
    subst h
    exact pymin_foldl_spec f xs x

/-! ### Clamped linear interpolation

Modelled from the spec: `interp` from `openpilot.common.numpy_fast` is part of
the repository but not under `src/`; the spec (§4.1) describes it as
clamped-linear interpolation between table points, with out-of-range inputs
using the endpoint values. -/

/-- Modelled from the spec: clamped-linear interpolation of `(xp, fp)` at `x`
(`openpilot.common.numpy_fast.interp`, not under `src/`). Outside the
breakpoint range the endpoint value is returned. -/
def interp (x : ℚ) : List ℚ → List ℚ → ℚ
  | x0 :: x1 :: xs, f0 :: f1 :: fs =>
      if x ≤ x0 then f0
      else if x ≤ x1 then f0 + (x - x0) * (f1 - f0) / (x1 - x0)
      else interp x (x1 :: xs) (f1 :: fs)
  | [_], f0 :: _ => f0
  | _, _ => 0

/-! ### Constants (radard.py lines 20-37) -/

def LEAD_PATH_DREL_MIN : ℚ := 60
def MIN_LANE_PROB : ℚ := 0.6
def LEAD_ACCEL_TAU : ℚ := 1.5
def V_EGO_STATIONARY : ℚ := 4
def RADAR_TO_CAMERA : ℚ := 1.52

/-- Modelled from the spec: `TRAJECTORY_SIZE` is imported from
`selfdrive.controls.lib.lane_planner` (part of the repository, not under
`src/`); the spec says only that the trajectory array length matches the model
contract (33 samples in that contract). No claim depends on the value. -/
def TRAJECTORY_SIZE : Nat := 33

/-! ### KF1D

Modelled from the spec: `KF1D` from `openpilot.common.kalman.simple_kalman` is
part of the repository but not under `src/`. The spec (§3, §9) describes it as
a value-typed two-state filter (state `[velocity, acceleration]`) driven by a
scalar velocity observation with a precomputed gain; the update is
`x ← (A − K·C)·x + K·meas`. -/

structure KF1D where
  x0 : ℚ
  x1 : ℚ
  a00 : ℚ
  a01 : ℚ
  a10 : ℚ
  a11 : ℚ
  c0 : ℚ
  c1 : ℚ
  k0 : ℚ
  k1 : ℚ
deriving DecidableEq, Repr

/-- Modelled from the spec: one filter step with precomputed gain,
`x ← (A − K·C)·x + K·meas`. -/
def KF1D.update (kf : KF1D) (meas : ℚ) : KF1D :=
  let ak00 := kf.a00 - kf.k0 * kf.c0
  let ak01 := kf.a01 - kf.k0 * kf.c1
  let ak10 := kf.a10 - kf.k1 * kf.c0
  let ak11 := kf.a11 - kf.k1 * kf.c1
  { kf with
    x0 := ak00 * kf.x0 + ak01 * kf.x1 + kf.k0 * meas,
    x1 := ak10 * kf.x0 + ak11 * kf.x1 + kf.k1 * meas }

/-! ### KalmanParams (radard.py lines 40-59) -/

structure KalmanParams where
  a00 : ℚ
  a01 : ℚ
  a10 : ℚ
  a11 : ℚ
  c0 : ℚ
  c1 : ℚ
  k0 : ℚ
  k1 : ℚ
deriving DecidableEq, Repr

/-- Breakpoints `[dt * 0.01 for dt in range(1, 21)]`. -/
def kalman_dts : List ℚ := (List.range 20).map (fun i => ((i : ℚ) + 1) * 0.01)

def kalman_K0 : List ℚ :=
  [0.12287673, 0.14556536, 0.16522756, 0.18281627, 0.1988689, 0.21372394,
   0.22761098, 0.24069424, 0.253096, 0.26491023, 0.27621103, 0.28705801,
   0.29750003, 0.30757767, 0.31732515, 0.32677158, 0.33594201, 0.34485814,
   0.35353899, 0.36200124]

def kalman_K1 : List ℚ :=
  [0.29666309, 0.29330885, 0.29042818, 0.28787125, 0.28555364, 0.28342219,
   0.28144091, 0.27958406, 0.27783249, 0.27617149, 0.27458948, 0.27307714,
   0.27162685, 0.27023228, 0.26888809, 0.26758976, 0.26633338, 0.26511557,
   0.26393339, 0.26278425]

/-- `KalmanParams.__init__` (radard.py lines 41-59). The `assert` on the radar
time step is embedded as `none` (an `AssertionError` aborts construction). -/
def KalmanParams.init (dt : ℚ) : Option KalmanParams :=
  if dt > 0.01 ∧ dt < 0.2 then
    some { a00 := 1, a01 := dt, a10 := 0, a11 := 1,
           c0 := 1, c1 := 0,
           k0 := interp dt kalman_dts kalman_K0,
           k1 := interp dt kalman_dts kalman_K1 }
  else none

/-! ### Track (radard.py lines 62-153) -/

structure Track where
  identifier : ℤ
  cnt : ℕ
  aLeadTau : ℚ
  kA00 : ℚ
  kA01 : ℚ
  kA10 : ℚ
  kA11 : ℚ
  kC0 : ℚ
  kC1 : ℚ
  kK0 : ℚ
  kK1 : ℚ
  kf : KF1D
  -- The fields below are assigned by `Track.update` (the constructor leaves
  -- them unset in Python); the orchestrator always calls `update` right after
  -- construction, so they are never read before being assigned. They are
  -- initialised to zero placeholders here.
  dRel : ℚ
  yRel : ℚ
  vRel : ℚ
  vLead : ℚ
  measured : Bool
  vLeadK : ℚ
  aLeadK : ℚ
deriving DecidableEq, Repr

/-- `Track.__init__` (radard.py lines 63-70). -/
def Track.create (identifier : ℤ) (v_lead : ℚ) (kp : KalmanParams) : Track :=
  { identifier := identifier, cnt := 0, aLeadTau := LEAD_ACCEL_TAU,
    kA00 := kp.a00, kA01 := kp.a01, kA10 := kp.a10, kA11 := kp.a11,
    kC0 := kp.c0, kC1 := kp.c1, kK0 := kp.k0, kK1 := kp.k1,
    kf := { x0 := v_lead, x1 := 0,
            a00 := kp.a00, a01 := kp.a01, a10 := kp.a10, a11 := kp.a11,
            c0 := kp.c0, c1 := kp.c1, k0 := kp.k0, k1 := kp.k1 },
    dRel := 0, yRel := 0, vRel := 0, vLead := 0, measured := false,
    vLeadK := 0, aLeadK := 0 }

/-- `Track.update` (radard.py lines 72-93). -/
def Track.update (t : Track) (d_rel y_rel v_rel v_lead : ℚ) (measured : Bool) : Track :=
  let kf := if t.cnt > 0 then t.kf.update v_lead else t.kf
  { t with
    dRel := d_rel, yRel := y_rel, vRel := v_rel, vLead := v_lead,
    measured := measured,
    kf := kf,
    vLeadK := kf.x0,
    aLeadK := kf.x1,
    aLeadTau := if |kf.x1| < 0.5 then LEAD_ACCEL_TAU else t.aLeadTau * 0.9,
    cnt := t.cnt + 1 }

/-- `Track.get_key_for_cluster` (radard.py lines 95-97). -/
def Track.get_key_for_cluster (t : Track) : List ℚ := [t.dRel, t.yRel * 2, t.vRel]

/-- `Track.reset_a_lead` (radard.py lines 99-102). -/
def Track.reset_a_lead (t : Track) (aLeadK aLeadTau : ℚ) : Track :=
  { t with
    kf := { x0 := t.vLead, x1 := aLeadK,
            a00 := t.kA00, a01 := t.kA01, a10 := t.kA10, a11 := t.kA11,
            c0 := t.kC0, c1 := t.kC1, k0 := t.kK0, k1 := t.kK1 },
    aLeadK := aLeadK, aLeadTau := aLeadTau }

/-- `Track.potential_low_speed_lead` (radard.py lines 143-146). -/
def Track.potential_low_speed_lead (t : Track) (v_ego : ℚ) : Bool :=
  decide (|t.yRel| < 1.0) && decide (v_ego < V_EGO_STATIONARY) &&
    (decide (0.75 < t.dRel) && decide (t.dRel < 25))

/-- `Track.is_potential_fcw` (radard.py lines 148-149). -/
def Track.is_potential_fcw (_t : Track) (model_prob : ℚ) : Bool :=
  decide (model_prob > 0.9)

/-! ### Lead records

The Python source passes lead records around as dicts. Two shapes occur: the
bare `{'status': False}` and the full record produced by
`Track.get_RadarState2` / `get_RadarState_from_vision`. `LeadDict` embeds this:
`rest = none` is the bare dict, and reading a key of the missing part
(`lead_dict['dRel']`) is a `KeyError`, embedded as `none` downstream. -/

/-- Vision lead hypothesis (`modelV2.leadsV3[i]`). The core reads only index 0
of each per-lead array, so the embedding carries those elements directly. -/
structure LeadMsg where
  x0 : ℚ
  y0 : ℚ
  v0 : ℚ
  a0 : ℚ
  xStd0 : ℚ
  yStd0 : ℚ
  vStd0 : ℚ
  prob : ℚ
deriving DecidableEq, Repr

structure LeadFields where
  dRel : ℚ
  yRel : ℚ
  vRel : ℚ
  vLead : ℚ
  vLeadK : ℚ
  aLeadK : ℚ
  aLeadTau : ℚ
  fcw : Bool
  modelProb : ℚ
  radar : Bool
  radarTrackId : ℤ
deriving DecidableEq, Repr

structure LeadDict where
  status : Bool
  rest : Option LeadFields
deriving DecidableEq, Repr

/-- Field part of `Track.get_RadarState2` (radard.py lines 120-140). -/
def Track.get_RadarState2_fields (t : Track) (model_prob : ℚ) (lead_msg : LeadMsg)
    (mixRadarInfo : ℤ) : LeadFields :=
  let useVisionMix := mixRadarInfo > 0 ∧ lead_msg.prob > 0.5 ∧ |t.aLeadK| < |lead_msg.a0|
  { dRel := t.dRel,
    yRel := if mixRadarInfo = 0 ∨ t.yRel ≠ 0 then t.yRel else -lead_msg.y0,
    vRel := t.vRel,
    vLead := t.vLead,
    vLeadK := t.vLeadK,
    aLeadK := if useVisionMix then lead_msg.a0 else t.aLeadK,
    aLeadTau := t.aLeadTau,
    fcw := t.is_potential_fcw model_prob,
    modelProb := model_prob,
    radar := true,
    radarTrackId := t.identifier }

/-- `Track.get_RadarState2` (radard.py lines 120-140): a full record with
`status = True`. -/
def Track.get_RadarState2 (t : Track) (model_prob : ℚ) (lead_msg : LeadMsg)
    (mixRadarInfo : ℤ) : LeadDict :=
  { status := true, rest := some (t.get_RadarState2_fields model_prob lead_msg mixRadarInfo) }

/-! ### Vision-to-track association (radard.py lines 156-181) -/

/-- `laplacian_pdf` (radard.py lines 156-158); `mexp` abstracts `math.exp`. -/
def laplacian_pdf (mexp : ℚ → ℚ) (x mu b : ℚ) : ℚ :=
  mexp (-|x - mu| / max b 0.0001)

/-- `match_vision_to_track` (radard.py lines 161-181). The outer `Option`
models the `ValueError` of `max` on an empty track dict; the inner `Option` is
the function's own `None` ("no sane match"). -/
def match_vision_to_track (mexp : ℚ → ℚ) (v_ego : ℚ) (lead : LeadMsg)
    (tracks : List (ℤ × Track)) : Option (Option Track) :=
  let offset_vision_dist := lead.x0 - RADAR_TO_CAMERA
  let prob := fun (c : Track) =>
    laplacian_pdf mexp c.dRel offset_vision_dist lead.xStd0 *
      laplacian_pdf mexp c.yRel (-lead.y0) lead.yStd0 *
      laplacian_pdf mexp (c.vRel + v_ego) lead.v0 lead.vStd0
  match pymax prob (tracks.map Prod.snd) with
  | none => none
  | some track =>
    let dist_sane := |track.dRel - offset_vision_dist| < max (offset_vision_dist * 0.35) 5.0
    let vel_sane := |track.vRel + v_ego - lead.v0| < 10 ∨ v_ego + track.vRel > 3
    if dist_sane ∧ vel_sane then some (some track) else some none

/-- `get_RadarState_from_vision` (radard.py lines 247-262). -/
def get_RadarState_from_vision (lead_msg : LeadMsg) (v_ego model_v_ego : ℚ) : LeadDict :=
  let lead_v_rel_pred := lead_msg.v0 - model_v_ego
  { status := true,
    rest := some
      { dRel := lead_msg.x0 - RADAR_TO_CAMERA,
        yRel := -lead_msg.y0,
        vRel := lead_v_rel_pred,
        vLead := v_ego + lead_v_rel_pred,
        vLeadK := v_ego + lead_v_rel_pred,
        aLeadK := 0,
        aLeadTau := 0.3,
        fcw := false,
        modelProb := lead_msg.prob,
        radar := false,
        radarTrackId := -1 } }

/-! ### Lead selector (radard.py lines 265-288) -/

/-- Steps 1-2 of `get_lead` (radard.py lines 267-277): association attempt and
the choice between projected, vision-only, and bare record, before the
low-speed override. The `Option` models a propagated exception. -/
def get_lead_pre (mexp : ℚ → ℚ) (v_ego : ℚ) (ready : Bool) (tracks : List (ℤ × Track))
    (lead_msg : LeadMsg) (model_v_ego : ℚ) (mixRadarInfo : ℤ) : Option LeadDict :=
  let track? : Option (Option Track) :=
    if tracks.length > 0 ∧ ready = true ∧ lead_msg.prob > 0.5 then
      match_vision_to_track mexp v_ego lead_msg tracks
    else some none
  match track? with
  | none => none
  | some (some track) => some (track.get_RadarState2 lead_msg.prob lead_msg mixRadarInfo)
  | some none =>
      if ready = true ∧ lead_msg.prob > 0.5 then
        some (get_RadarState_from_vision lead_msg v_ego model_v_ego)
      else some { status := false, rest := none }

/-- `get_lead` (radard.py lines 265-288): steps 1-2 (`get_lead_pre`) followed
by the low-speed override. Reading `lead_dict['dRel']` from a record without
that key is a `KeyError`, embedded as `none`. -/
def get_lead (mexp : ℚ → ℚ) (v_ego : ℚ) (ready : Bool) (tracks : List (ℤ × Track))
    (lead_msg : LeadMsg) (model_v_ego : ℚ) (low_speed_override : Bool)
    (mixRadarInfo : ℤ) : Option LeadDict :=
  match get_lead_pre mexp v_ego ready tracks lead_msg model_v_ego mixRadarInfo with
  | none => none
  | some lead_dict =>
    if low_speed_override then
      let low_speed_tracks :=
        (tracks.map Prod.snd).filter (fun c => c.potential_low_speed_lead v_ego)
      match pymin (fun c : Track => c.dRel) low_speed_tracks with
      | none => some lead_dict
      | some closest_track =>
        -- `if (not lead_dict['status']) or (closest_track.dRel < lead_dict['dRel'])`
        if lead_dict.status = false then
          some (closest_track.get_RadarState2 lead_msg.prob lead_msg mixRadarInfo)
        else
          match lead_dict.rest with
          | none => none  -- KeyError on lead_dict['dRel']
          | some f =>
            if closest_track.dRel < f.dRel then
              some (closest_track.get_RadarState2 lead_msg.prob lead_msg mixRadarInfo)
            else some lead_dict
    else some lead_dict

/-! ### Model output and path classification (radard.py lines 183-245) -/

structure LaneLine where
  x : List ℚ
  y : List ℚ
deriving DecidableEq, Repr

/-- Subset of the `modelV2` message read by `get_path_adjacent_leads`. -/
structure Md where
  laneLines : List LaneLine
  laneLineProbs : List ℚ
  position_x : List ℚ
  position_y : List ℚ
  leadsV3 : List LeadMsg
deriving DecidableEq, Repr

inductive PathSrc
  | modelPath
  | modelLaneLines
  | lowSpeedOverride
deriving DecidableEq, Repr

/-- Full lead record of the adjacent-lead path: the §4.3 record plus the
`dPath` and `vLat` keys added in the loop body (radard.py lines 233-235). -/
structure PathLead where
  lead : LeadFields
  dPath : ℚ
  vLat : ℚ
deriving DecidableEq, Repr

/-- Centerline synthesis (radard.py lines 187-205). Returns `(c_y, ll_x)`:
`c_y` is the optional lane-line centerline, `ll_x = none` means the Python
variable `ll_x` was never assigned (referencing it later is a `NameError`).
The outer `Option` models an exception: an IndexError on `laneLineProbs`, or
numpy's error on elementwise addition of arrays of different lengths. -/
def compute_c_y (md? : Option Md) (lane_width : ℚ) :
    Option (Option (List ℚ) × Option (List ℚ)) :=
  match md? with
  | none => some (none, none)  -- `md is not None` fails, first branch skipped
  | some md =>
    if md.laneLines.length = 4 ∧ lane_width > 0 ∧
        (md.laneLines.get? 1).map (fun l => l.x.length) = some TRAJECTORY_SIZE then
      match md.laneLines.get? 1, md.laneLines.get? 2 with
      | some ll1, some ll2 =>
        let ll_x := ll1.x
        let lll_y := ll1.y
        let rll_y := ll2.y
        match md.laneLineProbs.get? 1, md.laneLineProbs.get? 2 with
        | some l_prob, some r_prob =>
          if l_prob > MIN_LANE_PROB ∧ r_prob > MIN_LANE_PROB then
            if lll_y.length = rll_y.length then
              some (some (List.zipWith (fun a b => (a + b) / 2) lll_y rll_y), some ll_x)
            else none  -- numpy rejects elementwise `+` on mismatched lengths
          else if l_prob > MIN_LANE_PROB then
            some (some (lll_y.map (fun a => a + lane_width / 2)), some ll_x)
          else if r_prob > MIN_LANE_PROB then
            some (some (rll_y.map (fun a => a - lane_width / 2)), some ll_x)
          else some (none, some ll_x)
        | _, _ => none  -- IndexError on laneLineProbs[1] / laneLineProbs[2]
      | _, _ => none  -- unreachable: laneLines has length 4
    else some (none, none)

/-- Model-path selection (radard.py lines 207-211), embedded exactly as the
source behaves: the guard reads
`if md is not None or len(md.position.x) == TRAJECTORY_SIZE or
md.position.x[-1] > LEAD_PATH_DREL_MIN`, so `md is not None` short-circuits
the `or` and the model path is taken whenever `md` is present, with no check
of the trajectory length or of the 60 m horizon; when `md` is `None`, the
second disjunct evaluates `len(md.position.x)` on `None` and raises
(outer `none`). The inner `Option` is the `md_y = None` assignment of the
else-branch, which is unreachable without raising. -/
def model_path_select (md? : Option Md) : Option (Option (List ℚ × List ℚ)) :=
  match md? with
  | some md => some (some (md.position_x, md.position_y))
  | none => none

/-- Per-cluster lateral deviation from path (radard.py lines 218-226), with
Python's `and`/`or` precedence and short-circuit order:
`if (md_y is not None and c.dRel <= md_x[-1]) or
(c_y is not None and md_x[-1] - c.dRel < ll_x[-1] - c.dRel)` selects the model
formula, `elif c_y is not None` the lane-line formula, `else` the raw lateral.
`none` models a raised IndexError (`[-1]` on an empty list) or NameError
(`md_x`/`ll_x` referenced but never assigned). -/
def cluster_dPath (md_xy? : Option (List ℚ × List ℚ)) (c_y? ll_x? : Option (List ℚ))
    (c : Track) : Option (ℚ × PathSrc) :=
  match md_xy? with
  | some (md_x, md_y) =>
    match md_x.getLast? with
    | none => none  -- IndexError: md_x[-1] on an empty position trajectory
    | some mxl =>
      if c.dRel ≤ mxl then
        some (-c.yRel - interp c.dRel md_x md_y, PathSrc.modelPath)
      else
        match c_y? with
        | some c_y =>
          match ll_x? with
          | none => none  -- NameError: ll_x never assigned
          | some ll_x =>
            match ll_x.getLast? with
            | none => none  -- IndexError: ll_x[-1] on an empty list
            | some llxl =>
              if mxl - c.dRel < llxl - c.dRel then
                some (-c.yRel - interp c.dRel md_x md_y, PathSrc.modelPath)
              else some (-c.yRel - interp c.dRel ll_x c_y, PathSrc.modelLaneLines)
        | none => some (-c.yRel, PathSrc.lowSpeedOverride)
  | none =>
    -- `md_y is not None` is false; the second disjunct then evaluates
    -- `md_x[-1]`, and `md_x` was never assigned, unless `c_y is not None`
    -- already short-circuits it to false
    match c_y? with
    | some _ => none  -- NameError: md_x never assigned
    | none => some (-c.yRel, PathSrc.lowSpeedOverride)

/-- Accumulated corridor dicts keyed by `abs(dPath)` (radard.py lines 213-215,
236-241). -/
structure AdjAcc where
  left : List (ℚ × PathLead)
  center : List (ℚ × PathLead)
  right : List (ℚ × PathLead)
deriving DecidableEq, Repr

/-- Loop body of `get_path_adjacent_leads` (radard.py lines 217-241) for one
cluster. -/
def adj_step (msqrt : ℚ → ℚ) (md_xy? : Option (List ℚ × List ℚ))
    (c_y? ll_x? : Option (List ℚ)) (lead_msg : LeadMsg) (mixRadarInfo : ℤ)
    (half_lane_width : ℚ) (acc : AdjAcc) (c : Track) : Option AdjAcc :=
  match cluster_dPath md_xy? c_y? ll_x? c with
  | none => none
  | some (dPath, _src) =>
    let ld := c.get_RadarState2_fields lead_msg.prob lead_msg mixRadarInfo
    let pl : PathLead :=
      { lead := ld, dPath := dPath, vLat := msqrt ((10 * dPath) ^ 2 + c.dRel ^ 2) }
    if |dPath| < half_lane_width ∧ ld.vLeadK > -1 then
      some { acc with center := dinsert acc.center |dPath| pl }
    else if dPath < 0 then
      some { acc with left := dinsert acc.left |dPath| pl }
    else
      some { acc with right := dinsert acc.right |dPath| pl }

/-- `get_path_adjacent_leads` (radard.py lines 183-245); `msqrt` abstracts
`math.sqrt`. Returns `(leads_left, leads_center, leads_right)`; `none` models
a raised exception anywhere in the body. -/
def get_path_adjacent_leads (msqrt : ℚ → ℚ) (_v_ego : ℚ) (md? : Option Md)
    (lane_width : ℚ) (clusters : List (ℤ × Track)) (mixRadarInfo : ℤ) :
    Option (List PathLead × List PathLead × List PathLead) :=
  if clusters.length = 0 then some ([], [], [])
  else
    match compute_c_y md? lane_width with
    | none => none
    | some (c_y?, ll_x?) =>
      match model_path_select md? with
      | none => none
      | some md_xy? =>
        match md? with
        | none => none  -- unreachable: model_path_select already raised
        | some md =>
          match md.leadsV3.head? with
          | none => none  -- IndexError: md.leadsV3[0] in the loop body
          | some lead_msg =>
            let folded := clusters.foldl
              (fun acc? kc => acc?.bind
                (fun acc => adj_step msqrt md_xy? c_y? ll_x? lead_msg mixRadarInfo
                  (lane_width / 2) acc kc.2))
              (some { left := [], center := [], right := [] })
            match folded with
            | none => none
            | some d =>
              let ll := (List.insertionSort (fun a b : ℚ => a ≤ b)
                (dkeys d.left)).filterMap (dget d.left)
              let lr := (List.insertionSort (fun a b : ℚ => a ≤ b)
                (dkeys d.right)).filterMap (dget d.right)
              let lc := List.insertionSort
                (fun a b : PathLead => a.lead.dRel ≤ b.lead.dRel) (d.center.map Prod.snd)
              some (ll, lc, lr)

/-! ### Cycle update of the track map (radard.py lines 326-345) -/

/-- One decoded radar return (`RadarData.points[i]`). -/
structure RadarPoint where
  trackId : ℤ
  dRel : ℚ
  yRel : ℚ
  vRel : ℚ
  measured : Bool
deriving DecidableEq, Repr

/-- `ar_pts` construction (radard.py lines 326-328): an identifier-keyed dict
of `[dRel, yRel, vRel, measured]`; a repeated `trackId` overwrites. -/
def build_ar_pts (pts : List RadarPoint) : List (ℤ × (ℚ × ℚ × ℚ × Bool)) :=
  pts.foldl (fun m pt => dinsert m pt.trackId (pt.dRel, pt.yRel, pt.vRel, pt.measured)) []

/-- Upsert of one frame entry (radard.py lines 336-345): create the track if
missing, then call `update` on it. -/
def upsert_track (kp : KalmanParams) (v_ego_hist0 : ℚ)
    (ts : List (ℤ × Track)) (idrpt : ℤ × (ℚ × ℚ × ℚ × Bool)) : List (ℤ × Track) :=
  let ids := idrpt.1
  let rpt := idrpt.2
  -- `v_lead = rpt[2] + self.v_ego_hist[0]`
  let v_lead := rpt.2.2.1 + v_ego_hist0
  let ts1 := if (dget ts ids).isSome then ts else dinsert ts ids (Track.create ids v_lead kp)
  match dget ts1 ids with
  | some t => dinsert ts1 ids (t.update rpt.1 rpt.2.1 rpt.2.2.1 v_lead rpt.2.2.2)
  | none => ts1  -- unreachable: the track was just created

/-- Track-map portion of `RadarD.update` (radard.py lines 326-345): partition
the frame into `ar_pts`, evict identifiers absent from the frame, then upsert
every identifier present. -/
def radard_update_tracks (kp : KalmanParams) (v_ego_hist0 : ℚ)
    (tracks : List (ℤ × Track)) (radar_points : List RadarPoint) : List (ℤ × Track) :=
  let ar_pts := build_ar_pts radar_points
  -- `for ids in list(self.tracks.keys()): if ids not in ar_pts: pop(ids)`
  let tracks1 := tracks.filter (fun p => (dget ar_pts p.1).isSome)
  -- `for ids in ar_pts: ...`
  ar_pts.foldl (upsert_track kp v_ego_hist0) tracks1

/-! ### Iterated track updates (harness for the `aLeadTau` invariant) -/

/-- Arguments of one `Track.update` call. -/
structure UpdIn where
  dRel : ℚ
  yRel : ℚ
  vRel : ℚ
  vLead : ℚ
  measured : Bool
deriving DecidableEq, Repr

def applyUpd (t : Track) (u : UpdIn) : Track :=
  t.update u.dRel u.yRel u.vRel u.vLead u.measured

/-- Iterated `Track.update`. -/
def updN (t : Track) (us : List UpdIn) : Track := us.foldl applyUpd t

/-- Holds when `|aLeadK| ≥ 0.5` right after every update of the sequence. -/
def allHighB : Track → List UpdIn → Bool
  | _, [] => true
  | t, u :: us =>
      (decide ((0.5 : ℚ) ≤ |(applyUpd t u).aLeadK|)) && allHighB (applyUpd t u) us

/-- List of tracks satisfying `potential_low_speed_lead` (the
`low_speed_tracks` comprehension of radard.py line 280). -/
def low_speed_tracks_of (v_ego : ℚ) (tracks : List (ℤ × Track)) : List Track :=
  (tracks.map Prod.snd).filter (fun c => c.potential_low_speed_lead v_ego)

/-! ### Invariants of the corridor dicts (harness for path classification) -/

/-- Key-value coupling and corridor conditions of the three dicts built by the
classification loop: every binding's key is the record's `|dPath|`, center
records satisfy the center condition, left records fail it and have
`dPath < 0`, right records fail it and have `dPath ≥ 0`. -/
def AdjInv (hlw : ℚ) (d : AdjAcc) : Prop :=
  (∀ kv ∈ d.center, kv.1 = |kv.2.dPath| ∧
    (|kv.2.dPath| < hlw ∧ kv.2.lead.vLeadK > -1)) ∧
  (∀ kv ∈ d.left, kv.1 = |kv.2.dPath| ∧
    ¬(|kv.2.dPath| < hlw ∧ kv.2.lead.vLeadK > -1) ∧ kv.2.dPath < 0) ∧
  (∀ kv ∈ d.right, kv.1 = |kv.2.dPath| ∧
    ¬(|kv.2.dPath| < hlw ∧ kv.2.lead.vLeadK > -1) ∧ ¬(kv.2.dPath < 0))

/-- Total number of bindings across the three corridor dicts. -/
def adjSize (d : AdjAcc) : ℕ := d.left.length + d.center.length + d.right.length

instance : IsTotal PathLead (fun a b => a.lead.dRel ≤ b.lead.dRel) :=
  ⟨fun _ _ => le_total _ _⟩

instance : IsTrans PathLead (fun a b => a.lead.dRel ≤ b.lead.dRel) :=
  ⟨fun _ _ _ h1 h2 => le_trans h1 h2⟩

/-! ### Concrete fixtures for witnesses and counterexamples -/

def sampleKF : KF1D :=
  { x0 := 0, x1 := 0, a00 := 1, a01 := 1/20, a10 := 0, a11 := 1,
    c0 := 1, c1 := 0, k0 := 1/4, k1 := 1/4 }

def sampleTrack : Track :=
  { identifier := 1, cnt := 1, aLeadTau := 1.5,
    kA00 := 1, kA01 := 1/20, kA10 := 0, kA11 := 1,
    kC0 := 1, kC1 := 0, kK0 := 1/4, kK1 := 1/4,
    kf := sampleKF,
    dRel := 0, yRel := 0, vRel := 0, vLead := 0, measured := true,
    vLeadK := 0, aLeadK := 0 }

def sampleLeadMsg : LeadMsg :=
  { x0 := 0, y0 := 0, v0 := 0, a0 := 0, xStd0 := 1, yStd0 := 1, vStd0 := 1, prob := 0 }

/-- Model output with a short position trajectory (length 1, last sample
10 m): by the spec's reading of the guard, no model path should be taken. -/
def shortMd : Md :=
  { laneLines := [], laneLineProbs := [], position_x := [10], position_y := [0],
    leadsV3 := [sampleLeadMsg] }

/-- Model output with a single 100 m straight-path sample and no usable lane
lines. -/
def pathMd : Md :=
  { laneLines := [], laneLineProbs := [], position_x := [100], position_y := [0],
    leadsV3 := [sampleLeadMsg] }

def trackNear : Track := { sampleTrack with dRel := 10, yRel := 0.5 }

def trackFar : Track := { sampleTrack with dRel := 20, yRel := 0.5 }

/-- Path-lead record produced for `trackNear` on the straight 100 m path. -/
def nearPathLead : PathLead :=
  { lead := trackNear.get_RadarState2_fields sampleLeadMsg.prob sampleLeadMsg 0,
    dPath := -0.5, vLat := 0 }

/-- Path-lead record produced for `trackFar` on the straight 100 m path. -/
def farPathLead : PathLead :=
  { lead := trackFar.get_RadarState2_fields sampleLeadMsg.prob sampleLeadMsg 0,
    dPath := -0.5, vLat := 0 }

/-! ## Theorems -/

/-- C7. The vision-only lead record (no radar match) carries exactly the
fields the spec lists: `dRel = x[0] − 1.52`, `yRel = −y[0]`,
`vRel = v[0] − vEgoModel`, `vLead = vLeadK = vEgo + vRel`, `aLeadK = 0`,
`aLeadTau = 0.3`, `status = true`, `radar = false`, `radarTrackId = −1`,
`fcw = false`. -/
theorem vision_only_lead_fields (lead_msg : LeadMsg) (v_ego model_v_ego : ℚ) :
    (get_RadarState_from_vision lead_msg v_ego model_v_ego).status = true ∧
    ∃ f, (get_RadarState_from_vision lead_msg v_ego model_v_ego).rest = some f ∧
      f.dRel = lead_msg.x0 - 1.52 ∧
      f.yRel = -lead_msg.y0 ∧
      f.vRel = lead_msg.v0 - model_v_ego ∧
      f.vLead = v_ego + (lead_msg.v0 - model_v_ego) ∧
      f.vLeadK = f.vLead ∧
      f.aLeadK = 0 ∧
      f.aLeadTau = 0.3 ∧
      f.radar = false ∧
      f.radarTrackId = -1 ∧
      f.fcw = false := by
  exact ⟨rfl, _, rfl, rfl, rfl, rfl, rfl, rfl, rfl, rfl, rfl, rfl, rfl⟩

/-- C4. In the projected (fused) lead record, the emitted `aLeadK` is the
vision value `a[0]` when `mix > 0 ∧ prob > 0.5 ∧ |T.aLeadK| < |a[0]|` and the
track value otherwise; in particular with `mix = 1`, `T.aLeadK = −1`,
`a[0] = −3` the result is `−3` at `prob = 0.8` and `−1` at `prob = 0.4`. -/
theorem projected_aLeadK_mix_rule :
    (∀ (t : Track) (mp : ℚ) (lm : LeadMsg) (mix : ℤ),
      ((mix > 0 ∧ lm.prob > 0.5 ∧ |t.aLeadK| < |lm.a0|) →
        (t.get_RadarState2 mp lm mix).rest.map LeadFields.aLeadK = some lm.a0) ∧
      (¬(mix > 0 ∧ lm.prob > 0.5 ∧ |t.aLeadK| < |lm.a0|) →
        (t.get_RadarState2 mp lm mix).rest.map LeadFields.aLeadK = some t.aLeadK)) ∧
    (({ sampleTrack with aLeadK := -1 } : Track).get_RadarState2 0.8
        { sampleLeadMsg with a0 := -3, prob := 0.8 } 1).rest.map LeadFields.aLeadK
      = some (-3) ∧
    (({ sampleTrack with aLeadK := -1 } : Track).get_RadarState2 0.4
        { sampleLeadMsg with a0 := -3, prob := 0.4 } 1).rest.map LeadFields.aLeadK
      = some (-1) := by
  refine ⟨fun t mp lm mix => ⟨fun h => ?_, fun h => ?_⟩, ?_, ?_⟩
  · simp [Track.get_RadarState2, Track.get_RadarState2_fields, h]
  · simp [Track.get_RadarState2, Track.get_RadarState2_fields, h]
  · norm_num [Track.get_RadarState2, Track.get_RadarState2_fields, sampleTrack, sampleLeadMsg]
  · norm_num [Track.get_RadarState2, Track.get_RadarState2_fields, sampleTrack, sampleLeadMsg]

/-- Witness for C4: the mix condition holds at the first concrete input and
the theorem yields the vision acceleration there. -/
theorem projected_aLeadK_mix_rule_witness :
    ((1 : ℤ) > 0 ∧ (0.8 : ℚ) > 0.5 ∧
      |({ sampleTrack with aLeadK := -1 } : Track).aLeadK| <
        |({ sampleLeadMsg with a0 := -3, prob := 0.8 } : LeadMsg).a0|) ∧
    (({ sampleTrack with aLeadK := -1 } : Track).get_RadarState2 0.8
        { sampleLeadMsg with a0 := -3, prob := 0.8 } 1).rest.map LeadFields.aLeadK
      = some ({ sampleLeadMsg with a0 := -3, prob := 0.8 } : LeadMsg).a0 :=
  ⟨by norm_num [sampleTrack, sampleLeadMsg],
    (projected_aLeadK_mix_rule.1 { sampleTrack with aLeadK := -1 } 0.8
      { sampleLeadMsg with a0 := -3, prob := 0.8 } 1).1
      (by norm_num [sampleTrack, sampleLeadMsg])⟩

/-- C6 counterexample: the claim asserts that construction succeeds on the
closed interval `[0.01, 0.20]`, but the source asserts a strict inequality on
both ends, so `KalmanParams(0.01)` and `KalmanParams(0.20)` both raise. -/
theorem kalman_params_endpoint_rejected :
    KalmanParams.init 0.01 = none ∧ KalmanParams.init 0.2 = none := by
  constructor <;> norm_num [KalmanParams.init]

/-- C6 (amended). For every `dt` strictly between 0.01 and 0.20 the
construction succeeds, and at the interior table points `0.01·k`,
`k ∈ 2..19`, the gains equal the tabulated values exactly. -/
theorem kalman_dts_eq :
    kalman_dts = [0.01, 0.02, 0.03, 0.04, 0.05, 0.06, 0.07, 0.08, 0.09, 0.1,
      0.11, 0.12, 0.13, 0.14, 0.15, 0.16, 0.17, 0.18, 0.19, 0.2] := by
  norm_num [kalman_dts, List.range_succ]

set_option maxHeartbeats 2000000 in
theorem kalman_params_open_interval_gains :
    (∀ dt : ℚ, 0.01 < dt → dt < 0.2 → (KalmanParams.init dt).isSome) ∧
    (∀ k : ℕ, k ∈ Finset.Icc 2 19 →
      (KalmanParams.init ((k : ℚ) / 100)).map (fun kp => (kp.k0, kp.k1)) =
        some (kalman_K0.getD (k - 1) 0, kalman_K1.getD (k - 1) 0)) := by
  constructor
  · intro dt h1 h2
    simp [KalmanParams.init, h1, h2]
  · intro k hk
    rw [Finset.mem_Icc] at hk
    obtain ⟨hk1, hk2⟩ := hk
    interval_cases k <;>
      norm_num [KalmanParams.init, kalman_dts_eq, interp, kalman_K0, kalman_K1, List.getD]

theorem applyUpd_aLeadK (t : Track) (u : UpdIn) :
    (applyUpd t u).aLeadK = (if t.cnt > 0 then t.kf.update u.vLead else t.kf).x1 := rfl

theorem applyUpd_aLeadTau (t : Track) (u : UpdIn) :
    (applyUpd t u).aLeadTau =
      if |(if t.cnt > 0 then t.kf.update u.vLead else t.kf).x1| < 0.5 then LEAD_ACCEL_TAU
      else t.aLeadTau * 0.9 := rfl

theorem updN_aLeadTau_of_allHigh (t : Track) (us : List UpdIn)
    (h : allHighB t us = true) :
    (updN t us).aLeadTau = t.aLeadTau * 0.9 ^ us.length := by
  induction us generalizing t with
  | nil => simp [updN]
  | cons u us ih =>
    simp only [allHighB, Bool.and_eq_true, decide_eq_true_eq] at h
    obtain ⟨h1, h2⟩ := h
    have hstep : (applyUpd t u).aLeadTau = t.aLeadTau * 0.9 := by
      rw [applyUpd_aLeadTau, if_neg]
      rw [applyUpd_aLeadK] at h1
      exact not_lt.mpr h1
    have hrec : (updN t (u :: us)).aLeadTau = (updN (applyUpd t u) us).aLeadTau := rfl
    rw [hrec, ih _ h2, hstep, List.length_cons]
    ring

theorem updN_aLeadTau_bounds (t : Track) (us : List UpdIn)
    (h0 : 0 < t.aLeadTau) (h1 : t.aLeadTau ≤ 1.5) :
    0 < (updN t us).aLeadTau ∧ (updN t us).aLeadTau ≤ 1.5 := by
  induction us generalizing t with
  | nil => exact ⟨h0, h1⟩
  | cons u us ih =>
    refine ih (applyUpd t u) ?_ ?_ <;> rw [applyUpd_aLeadTau] <;>
      by_cases hc : |(if t.cnt > 0 then t.kf.update u.vLead else t.kf).x1| < 0.5
    · rw [if_pos hc]
      norm_num [LEAD_ACCEL_TAU]
    · rw [if_neg hc]
      exact mul_pos h0 (by norm_num)
    · rw [if_pos hc]
      norm_num [LEAD_ACCEL_TAU]
    · rw [if_neg hc]
      nlinarith [h0, h1]

/-- C5. After any update where the smoothed `|aLeadK| < 0.5`, `aLeadTau` is
reset to 1.5; starting from `aLeadTau = 1.5`, after `N` consecutive updates
during each of which `|aLeadK| ≥ 0.5` held, `aLeadTau = 1.5 · 0.9^N`; and
from creation, `aLeadTau` stays in `(0, 1.5]` across every update sequence.
(The run of `≥ 0.5` updates is anchored at a state with `aLeadTau = 1.5`:
creation and every reset both give exactly that state, and the very first
update of a fresh track always resets, since the filter is not stepped and
`aLeadK = 0`.) -/
theorem aLeadTau_decay_rule :
    (∀ (t : Track) (u : UpdIn),
      |(applyUpd t u).aLeadK| < 0.5 → (applyUpd t u).aLeadTau = 1.5) ∧
    (∀ (t : Track) (us : List UpdIn), t.aLeadTau = 1.5 → allHighB t us = true →
      (updN t us).aLeadTau = 1.5 * 0.9 ^ us.length) ∧
    (∀ (ident : ℤ) (v_lead : ℚ) (kp : KalmanParams) (us : List UpdIn),
      0 < (updN (Track.create ident v_lead kp) us).aLeadTau ∧
      (updN (Track.create ident v_lead kp) us).aLeadTau ≤ 1.5) := by
  refine ⟨?_, ?_, ?_⟩
  · intro t u h
    rw [applyUpd_aLeadTau, if_pos]
    · rfl
    · rwa [applyUpd_aLeadK] at h
  · intro t us ht h
    rw [updN_aLeadTau_of_allHigh t us h, ht]
  · intro ident v_lead kp us
    refine updN_aLeadTau_bounds _ us ?_ ?_ <;> norm_num [Track.create, LEAD_ACCEL_TAU]

/-- Witness for C5: a second-cycle track with a large filter acceleration
keeps `|aLeadK| ≥ 0.5` through one update, and its decay constant becomes
`1.5 · 0.9`; a track whose update gives `|aLeadK| < 0.5` resets to 1.5; a
freshly created track has `aLeadTau` within `(0, 1.5]`. -/
theorem aLeadTau_decay_rule_witness :
    (updN { sampleTrack with kf := { sampleKF with x1 := 10 } }
        [({ dRel := 0, yRel := 0, vRel := 0, vLead := 0, measured := false } : UpdIn)]).aLeadTau
      = 1.5 * 0.9 ^ ([({ dRel := 0, yRel := 0, vRel := 0, vLead := 0, measured := false } :
          UpdIn)] : List UpdIn).length ∧
    (applyUpd sampleTrack
        { dRel := 0, yRel := 0, vRel := 0, vLead := 0, measured := false }).aLeadTau = 1.5 ∧
    0 < (updN (Track.create 1 0
        { a00 := 1, a01 := 1/20, a10 := 0, a11 := 1, c0 := 1, c1 := 0, k0 := 1/4, k1 := 1/4 })
        []).aLeadTau :=
  ⟨aLeadTau_decay_rule.2.1 _ _ (by norm_num [sampleTrack])
      (by norm_num [allHighB, applyUpd, Track.update, KF1D.update, sampleTrack, sampleKF]),
    aLeadTau_decay_rule.1 _ _
      (by norm_num [applyUpd, Track.update, KF1D.update, sampleTrack, sampleKF]),
    (aLeadTau_decay_rule.2.2 1 0
      { a00 := 1, a01 := 1/20, a10 := 0, a11 := 1, c0 := 1, c1 := 0, k0 := 1/4, k1 := 1/4 }
      []).1⟩

/-- Witness for C6: the amended theorem applied at `dt = 0.05` and table
point `k = 5`. -/
theorem kalman_params_open_interval_gains_witness :
    ((0.01 : ℚ) < 0.05 ∧ (0.05 : ℚ) < 0.2) ∧ (KalmanParams.init 0.05).isSome ∧
    (((5 : ℕ) ∈ Finset.Icc 2 19) ∧
      (KalmanParams.init (((5 : ℕ) : ℚ) / 100)).map (fun kp => (kp.k0, kp.k1)) =
        some (kalman_K0.getD (5 - 1) 0, kalman_K1.getD (5 - 1) 0)) :=
  ⟨by norm_num,
    kalman_params_open_interval_gains.1 0.05 (by norm_num) (by norm_num),
    by simp,
    kalman_params_open_interval_gains.2 5 (by simp)⟩

theorem mem_dkeys_build_ar_pts_aux (pts : List RadarPoint)
    (m : List (ℤ × (ℚ × ℚ × ℚ × Bool))) (ids : ℤ) :
    ids ∈ dkeys (pts.foldl
        (fun m pt => dinsert m pt.trackId (pt.dRel, pt.yRel, pt.vRel, pt.measured)) m) ↔
      ids ∈ dkeys m ∨ ids ∈ pts.map RadarPoint.trackId := by
  induction pts generalizing m with
  | nil => simp
  | cons p ps ih =>
    simp only [List.foldl_cons]
    rw [ih, mem_dkeys_dinsert]
    simp only [List.map_cons, List.mem_cons]
    tauto

theorem mem_dkeys_build_ar_pts (pts : List RadarPoint) (ids : ℤ) :
    ids ∈ dkeys (build_ar_pts pts) ↔ ids ∈ pts.map RadarPoint.trackId := by
  rw [build_ar_pts, mem_dkeys_build_ar_pts_aux]
  simp [dkeys]

theorem mem_dkeys_upsert_track (kp : KalmanParams) (v0 : ℚ) (m : List (ℤ × Track))
    (kv : ℤ × (ℚ × ℚ × ℚ × Bool)) (ids : ℤ) :
    ids ∈ dkeys (upsert_track kp v0 m kv) ↔ ids = kv.1 ∨ ids ∈ dkeys m := by
  obtain ⟨k, rpt⟩ := kv
  simp only [upsert_track]
  by_cases h : (dget m k).isSome
  · simp only [if_pos h]
    obtain ⟨t, ht⟩ := Option.isSome_iff_exists.mp h
    rw [ht]
    rw [mem_dkeys_dinsert]
  · simp only [if_neg h]
    rw [dget_dinsert_self]
    rw [mem_dkeys_dinsert, mem_dkeys_dinsert]
    tauto

theorem mem_dkeys_upsert_foldl (kp : KalmanParams) (v0 : ℚ)
    (ar : List (ℤ × (ℚ × ℚ × ℚ × Bool))) (m : List (ℤ × Track)) (ids : ℤ) :
    ids ∈ dkeys (ar.foldl (upsert_track kp v0) m) ↔ ids ∈ dkeys m ∨ ids ∈ dkeys ar := by
  induction ar generalizing m with
  | nil => simp [dkeys]
  | cons kv ar ih =>
    simp only [List.foldl_cons]
    rw [ih, mem_dkeys_upsert_track]
    simp only [dkeys, List.map_cons, List.mem_cons]
    tauto

theorem dkeys_evict_isSome {α : Type} (tracks : List (ℤ × Track)) (ar : List (ℤ × α))
    (ids : ℤ)
    (h : ids ∈ dkeys (tracks.filter (fun p => (dget ar p.1).isSome))) :
    (dget ar ids).isSome = true := by
  simp only [dkeys, List.mem_map] at h
  obtain ⟨p, hp, rfl⟩ := h
  exact (List.mem_filter.mp hp).2

/-- C1. After a cycle update of the orchestrator (eviction of identifiers
absent from the radar frame, then upsert of every identifier present), the
identifiers in the track map are exactly the track identifiers of the frame
just processed, for every frame and every prior track-map state. -/
theorem track_map_ids_eq_frame_ids (kp : KalmanParams) (v0 : ℚ)
    (tracks : List (ℤ × Track)) (pts : List RadarPoint) (ids : ℤ) :
    ids ∈ dkeys (radard_update_tracks kp v0 tracks pts) ↔
      ids ∈ pts.map RadarPoint.trackId := by
  simp only [radard_update_tracks]
  rw [mem_dkeys_upsert_foldl]
  constructor
  · rintro (h | h)
    · rw [← mem_dkeys_build_ar_pts pts ids, ← dget_isSome_iff_mem_dkeys]
      exact dkeys_evict_isSome tracks (build_ar_pts pts) ids h
    · rwa [mem_dkeys_build_ar_pts] at h
  · intro h
    right
    rwa [mem_dkeys_build_ar_pts]

theorem match_vision_to_track_isSome (mexp : ℚ → ℚ) (v_ego : ℚ) (lead : LeadMsg)
    (tracks : List (ℤ × Track)) (h : tracks ≠ []) :
    (match_vision_to_track mexp v_ego lead tracks).isSome := by
  simp only [match_vision_to_track]
  have hm : tracks.map Prod.snd ≠ [] := by simpa using h
  obtain ⟨t, ht⟩ := Option.isSome_iff_exists.mp (pymax_isSome _ _ hm)
  rw [ht]
  split
  · simp_all
  · split <;> simp

theorem get_lead_pre_spec (mexp : ℚ → ℚ) (v_ego : ℚ) (ready : Bool)
    (tracks : List (ℤ × Track)) (lead_msg : LeadMsg) (model_v_ego : ℚ) (mix : ℤ) :
    ∃ d, get_lead_pre mexp v_ego ready tracks lead_msg model_v_ego mix = some d ∧
      d.status = d.rest.isSome := by
  simp only [get_lead_pre]
  by_cases hc : tracks.length > 0 ∧ ready = true ∧ lead_msg.prob > 0.5
  · rw [if_pos hc]
    have hne : tracks ≠ [] := by
      intro hnil
      rw [hnil] at hc
      simp at hc
    obtain ⟨tk, htk⟩ :=
      Option.isSome_iff_exists.mp (match_vision_to_track_isSome mexp v_ego lead_msg tracks hne)
    rw [htk]
    cases tk with
    | some t => exact ⟨_, rfl, rfl⟩
    | none =>
      by_cases hr : ready = true ∧ lead_msg.prob > 0.5
      · rw [if_pos hr]
        exact ⟨_, rfl, rfl⟩
      · rw [if_neg hr]
        exact ⟨_, rfl, rfl⟩
  · rw [if_neg hc]
    by_cases hr : ready = true ∧ lead_msg.prob > 0.5
    · rw [if_pos hr]
      exact ⟨_, rfl, rfl⟩
    · rw [if_neg hr]
      exact ⟨_, rfl, rfl⟩

/-- C9. The lead selector is total: it returns a record for every input and
never raises; in particular the vision-to-track association (a `max` over the
candidate tracks) succeeds whenever the track map is non-empty, and the bare
`{status: false}` record is never indexed for `dRel`. -/
theorem get_lead_total :
    (∀ (mexp : ℚ → ℚ) (v_ego : ℚ) (ready : Bool) (tracks : List (ℤ × Track))
      (lead_msg : LeadMsg) (model_v_ego : ℚ) (lso : Bool) (mix : ℤ),
      (get_lead mexp v_ego ready tracks lead_msg model_v_ego lso mix).isSome) ∧
    (∀ (mexp : ℚ → ℚ) (v_ego : ℚ) (lead_msg : LeadMsg) (tracks : List (ℤ × Track)),
      tracks ≠ [] → (match_vision_to_track mexp v_ego lead_msg tracks).isSome) := by
  constructor
  · intro mexp v_ego ready tracks lead_msg model_v_ego lso mix
    obtain ⟨d, hd, hcpl⟩ := get_lead_pre_spec mexp v_ego ready tracks lead_msg model_v_ego mix
    simp only [get_lead]
    rw [hd]
    cases lso with
    | false => simp
    | true =>
      simp only [if_pos rfl]
      cases hmin : pymin (fun c : Track => c.dRel)
          ((tracks.map Prod.snd).filter (fun c => c.potential_low_speed_lead v_ego)) with
      | none => simp
      | some closest =>
        cases hs : d.status with
        | false => simp [hs]
        | true =>
          rw [hs] at hcpl
          obtain ⟨f, hf⟩ := Option.isSome_iff_exists.mp hcpl.symm
          simp only [hs, hf]
          by_cases hlt : closest.dRel < f.dRel
          · simp [hlt]
          · simp [hlt]
  · exact fun mexp v_ego lead_msg tracks h =>
      match_vision_to_track_isSome mexp v_ego lead_msg tracks h

/-- Witness for C9: the selector at an empty track map returns a record, and
the association over a one-track map succeeds. -/
theorem get_lead_total_witness :
    (get_lead (fun _ => 0) 0 false [] sampleLeadMsg 0 true 0).isSome ∧
    (([((1 : ℤ), sampleTrack)] : List (ℤ × Track)) ≠ [] ∧
      (match_vision_to_track (fun _ => 0) 0 sampleLeadMsg [(1, sampleTrack)]).isSome) :=
  ⟨get_lead_total.1 (fun _ => 0) 0 false [] sampleLeadMsg 0 true 0,
    by simp,
    get_lead_total.2 (fun _ => 0) 0 sampleLeadMsg [(1, sampleTrack)] (by simp)⟩

/-- C2. With the low-speed-override flag set: if no track satisfies
`potentialLowSpeedLead(vEgo)` the selector's record is the pre-override one;
otherwise the qualifying track with smallest `dRel` replaces the record
exactly when the pre-override record has `status = false` or that track's
`dRel` is strictly smaller than the record's `dRel`. -/
theorem low_speed_override_replacement (mexp : ℚ → ℚ) (v_ego : ℚ) (ready : Bool)
    (tracks : List (ℤ × Track)) (lead_msg : LeadMsg) (model_v_ego : ℚ) (mix : ℤ) :
    (low_speed_tracks_of v_ego tracks = [] →
      get_lead mexp v_ego ready tracks lead_msg model_v_ego true mix =
        get_lead_pre mexp v_ego ready tracks lead_msg model_v_ego mix) ∧
    (∀ closest, pymin (fun c : Track => c.dRel) (low_speed_tracks_of v_ego tracks) =
        some closest →
      (closest ∈ low_speed_tracks_of v_ego tracks ∧
        ∀ c ∈ low_speed_tracks_of v_ego tracks, closest.dRel ≤ c.dRel) ∧
      (∀ d, get_lead_pre mexp v_ego ready tracks lead_msg model_v_ego mix = some d →
        get_lead mexp v_ego ready tracks lead_msg model_v_ego true mix =
          some (if (!d.status ||
              d.rest.elim false (fun f => decide (closest.dRel < f.dRel))) = true
            then closest.get_RadarState2 lead_msg.prob lead_msg mix
            else d))) := by
  constructor
  · intro hl
    obtain ⟨d, hd, _⟩ := get_lead_pre_spec mexp v_ego ready tracks lead_msg model_v_ego mix
    simp only [get_lead]
    rw [hd]
    simp only [if_pos rfl]
    rw [show (tracks.map Prod.snd).filter (fun c => c.potential_low_speed_lead v_ego) =
        low_speed_tracks_of v_ego tracks from rfl]
    rw [hl]
    simp [pymin, hd]
  · intro closest hmin
    refine ⟨pymin_spec _ _ _ hmin, ?_⟩
    intro d hd
    obtain ⟨d', hd', hcpl⟩ := get_lead_pre_spec mexp v_ego ready tracks lead_msg model_v_ego mix
    rw [hd] at hd'
    have hdd : d = d' := by injection hd'
    subst hdd
    simp only [get_lead]
    rw [hd]
    simp only [if_pos rfl]
    rw [show (tracks.map Prod.snd).filter (fun c => c.potential_low_speed_lead v_ego) =
        low_speed_tracks_of v_ego tracks from rfl]
    rw [hmin]
    cases hs : d.status with
    | false => simp [hs]
    | true =>
      rw [hs] at hcpl
      obtain ⟨f, hf⟩ := Option.isSome_iff_exists.mp hcpl.symm
      simp only [hs, hf]
      by_cases hlt : closest.dRel < f.dRel
      · simp [hlt]
      · simp [hlt]

/-- Witness for C2: with `vEgo = 2` and one qualifying stopped track at
`dRel = 5`, an unready selector (bare pre-record) is overridden by that
track's projected record. -/
theorem low_speed_override_replacement_witness :
    pymin (fun c : Track => c.dRel)
        (low_speed_tracks_of 2 [(1, { sampleTrack with dRel := 5 })]) =
      some { sampleTrack with dRel := 5 } ∧
    get_lead_pre (fun _ => 0) 2 false [(1, { sampleTrack with dRel := 5 })]
        sampleLeadMsg 0 0 = some { status := false, rest := none } ∧
    get_lead (fun _ => 0) 2 false [(1, { sampleTrack with dRel := 5 })]
        sampleLeadMsg 0 true 0 =
      some (({ sampleTrack with dRel := 5 } : Track).get_RadarState2
        sampleLeadMsg.prob sampleLeadMsg 0) := by
  have hpy : pymin (fun c : Track => c.dRel)
      (low_speed_tracks_of 2 [(1, { sampleTrack with dRel := 5 })]) =
      some { sampleTrack with dRel := 5 } := by
    norm_num [low_speed_tracks_of, Track.potential_low_speed_lead, V_EGO_STATIONARY,
      sampleTrack, pymin, List.filter]
  have hpre : get_lead_pre (fun _ => 0) 2 false [(1, { sampleTrack with dRel := 5 })]
      sampleLeadMsg 0 0 = some { status := false, rest := none } := by
    norm_num [get_lead_pre, sampleLeadMsg]
  refine ⟨hpy, hpre, ?_⟩
  have h := ((low_speed_override_replacement (fun _ => 0) 2 false
      [(1, { sampleTrack with dRel := 5 })] sampleLeadMsg 0 0).2
      { sampleTrack with dRel := 5 } hpy).2 { status := false, rest := none } hpre
  simpa using h

/-- C3 (code-bug evidence). The guard on radard.py line 207 is
`if md is not None or len(md.position.x) == TRAJECTORY_SIZE or
md.position.x[-1] > LEAD_PATH_DREL_MIN`: because the first disjunct
short-circuits the `or`, the model path is taken for `shortMd` even though
its trajectory has length 1 ≠ TRAJECTORY_SIZE and its last sample 10 ≤ 60,
where the claim (and the spec's stated intent) requires `md_y = null`; with
`md = None` the same guard dereferences `md` and raises instead of yielding a
null path; and downstream the model-path formula is applied to a track inside
the short horizon, and even to a track beyond the horizon via the second
disjunct of line 218. -/
theorem model_path_guard_malformed :
    shortMd.position_x.length ≠ TRAJECTORY_SIZE ∧
    shortMd.position_x.getLast? = some 10 ∧ ¬((10 : ℚ) > LEAD_PATH_DREL_MIN) ∧
    model_path_select (some shortMd) = some (some ([10], [0])) ∧
    model_path_select none = none ∧
    cluster_dPath (some ([10], [0])) none none
      { sampleTrack with dRel := 5, yRel := 1 } = some (-1, PathSrc.modelPath) ∧
    cluster_dPath (some ([10], [0])) (some [0]) (some [30])
      { sampleTrack with dRel := 20, yRel := 1 } = some (-1, PathSrc.modelPath) := by
  refine ⟨by norm_num [shortMd, TRAJECTORY_SIZE], by norm_num [shortMd],
    by norm_num [LEAD_PATH_DREL_MIN], rfl, rfl, ?_, ?_⟩
  · norm_num [cluster_dPath, interp, sampleTrack]
  · norm_num [cluster_dPath, interp, sampleTrack]

theorem mem_dinsert {κ α : Type} [DecidableEq κ] (m : List (κ × α)) (k : κ) (v : α)
    (kv : κ × α) (h : kv ∈ dinsert m k v) : kv = (k, v) ∨ kv ∈ m := by
  induction m with
  | nil =>
    simp [dinsert] at h
    exact Or.inl h
  | cons p rest ih =>
    obtain ⟨k0, v0⟩ := p
    by_cases h0 : k0 = k
    · subst h0
      rw [show dinsert ((k0, v0) :: rest) k0 v = (k0, v) :: rest from by simp [dinsert]] at h
      rcases List.mem_cons.mp h with h | h
      · exact Or.inl h
      · exact Or.inr (List.mem_cons_of_mem _ h)
    · simp only [dinsert, if_neg h0] at h
      rcases List.mem_cons.mp h with h | h
      · exact Or.inr (h ▸ List.mem_cons_self _ _)
      · rcases ih h with h | h
        · exact Or.inl h
        · exact Or.inr (List.mem_cons_of_mem _ h)

theorem adj_step_inv (msqrt : ℚ → ℚ) (md_xy? : Option (List ℚ × List ℚ))
    (c_y? ll_x? : Option (List ℚ)) (lm : LeadMsg) (mix : ℤ) (hlw : ℚ)
    (acc : AdjAcc) (c : Track) (acc' : AdjAcc)
    (hstep : adj_step msqrt md_xy? c_y? ll_x? lm mix hlw acc c = some acc')
    (hinv : AdjInv hlw acc) : AdjInv hlw acc' := by
  simp only [adj_step] at hstep
  cases hdp : cluster_dPath md_xy? c_y? ll_x? c with
  | none => rw [hdp] at hstep; exact absurd hstep (by simp)
  | some pr =>
    obtain ⟨dp, src⟩ := pr
    rw [hdp] at hstep
    simp only at hstep
    obtain ⟨hc, hl, hr⟩ := hinv
    by_cases h1 : |dp| < hlw ∧ (c.get_RadarState2_fields lm.prob lm mix).vLeadK > -1
    · rw [if_pos h1] at hstep
      obtain rfl : _ = acc' := Option.some.inj hstep
      refine ⟨?_, hl, hr⟩
      intro kv hkv
      rcases mem_dinsert _ _ _ _ hkv with h | h
      · subst h
        exact ⟨rfl, h1⟩
      · exact hc kv h
    · rw [if_neg h1] at hstep
      by_cases h2 : dp < 0
      · rw [if_pos h2] at hstep
        obtain rfl : _ = acc' := Option.some.inj hstep
        refine ⟨hc, ?_, hr⟩
        intro kv hkv
        rcases mem_dinsert _ _ _ _ hkv with h | h
        · subst h
          exact ⟨rfl, h1, h2⟩
        · exact hl kv h
      · rw [if_neg h2] at hstep
        obtain rfl : _ = acc' := Option.some.inj hstep
        refine ⟨hc, hl, ?_⟩
        intro kv hkv
        rcases mem_dinsert _ _ _ _ hkv with h | h
        · subst h
          exact ⟨rfl, h1, h2⟩
        · exact hr kv h

theorem foldl_bind_none {β γ : Type} (g : γ → β → Option β) (l : List γ) :
    l.foldl (fun a? c => a?.bind (fun a => g c a)) none = none := by
  induction l with
  | nil => rfl
  | cons c cs ih => simpa using ih

theorem adj_fold_inv (msqrt : ℚ → ℚ) (md_xy? : Option (List ℚ × List ℚ))
    (c_y? ll_x? : Option (List ℚ)) (lm : LeadMsg) (mix : ℤ) (hlw : ℚ)
    (clusters : List (ℤ × Track)) :
    ∀ (acc d : AdjAcc), AdjInv hlw acc →
      clusters.foldl (fun a? kc => a?.bind
        (fun a => adj_step msqrt md_xy? c_y? ll_x? lm mix hlw a kc.2)) (some acc) = some d →
      AdjInv hlw d := by
  induction clusters with
  | nil =>
    intro acc d h hf
    simp only [List.foldl_nil, Option.some.injEq] at hf
    exact hf ▸ h
  | cons kc cl ih =>
    intro acc d h hf
    simp only [List.foldl_cons, Option.some_bind] at hf
    cases hstep : adj_step msqrt md_xy? c_y? ll_x? lm mix hlw acc kc.2 with
    | none =>
      rw [hstep, foldl_bind_none] at hf
      exact absurd hf (by simp)
    | some acc' =>
      rw [hstep] at hf
      exact ih acc' d (adj_step_inv _ _ _ _ _ _ _ _ _ _ hstep h) hf

theorem adj_step_size (msqrt : ℚ → ℚ) (md_xy? : Option (List ℚ × List ℚ))
    (c_y? ll_x? : Option (List ℚ)) (lm : LeadMsg) (mix : ℤ) (hlw : ℚ)
    (acc : AdjAcc) (c : Track) (acc' : AdjAcc)
    (hstep : adj_step msqrt md_xy? c_y? ll_x? lm mix hlw acc c = some acc') :
    adjSize acc' ≤ adjSize acc + 1 := by
  simp only [adj_step] at hstep
  cases hdp : cluster_dPath md_xy? c_y? ll_x? c with
  | none => rw [hdp] at hstep; exact absurd hstep (by simp)
  | some pr =>
    obtain ⟨dp, src⟩ := pr
    rw [hdp] at hstep
    simp only at hstep
    by_cases h1 : |dp| < hlw ∧ (c.get_RadarState2_fields lm.prob lm mix).vLeadK > -1
    · rw [if_pos h1] at hstep
      obtain rfl : _ = acc' := Option.some.inj hstep
      have := length_dinsert_le acc.center |dp|
        ({ lead := c.get_RadarState2_fields lm.prob lm mix, dPath := dp,
           vLat := msqrt ((10 * dp) ^ 2 + c.dRel ^ 2) } : PathLead)
      simp only [adjSize]
      omega
    · rw [if_neg h1] at hstep
      by_cases h2 : dp < 0
      · rw [if_pos h2] at hstep
        obtain rfl : _ = acc' := Option.some.inj hstep
        have := length_dinsert_le acc.left |dp|
          ({ lead := c.get_RadarState2_fields lm.prob lm mix, dPath := dp,
             vLat := msqrt ((10 * dp) ^ 2 + c.dRel ^ 2) } : PathLead)
        simp only [adjSize]
        omega
      · rw [if_neg h2] at hstep
        obtain rfl : _ = acc' := Option.some.inj hstep
        have := length_dinsert_le acc.right |dp|
          ({ lead := c.get_RadarState2_fields lm.prob lm mix, dPath := dp,
             vLat := msqrt ((10 * dp) ^ 2 + c.dRel ^ 2) } : PathLead)
        simp only [adjSize]
        omega

theorem adj_fold_size (msqrt : ℚ → ℚ) (md_xy? : Option (List ℚ × List ℚ))
    (c_y? ll_x? : Option (List ℚ)) (lm : LeadMsg) (mix : ℤ) (hlw : ℚ)
    (clusters : List (ℤ × Track)) :
    ∀ (acc d : AdjAcc),
      clusters.foldl (fun a? kc => a?.bind
        (fun a => adj_step msqrt md_xy? c_y? ll_x? lm mix hlw a kc.2)) (some acc) = some d →
      adjSize d ≤ adjSize acc + clusters.length := by
  induction clusters with
  | nil =>
    intro acc d hf
    simp only [List.foldl_nil, Option.some.injEq] at hf
    simp [← hf]
  | cons kc cl ih =>
    intro acc d hf
    simp only [List.foldl_cons, Option.some_bind] at hf
    cases hstep : adj_step msqrt md_xy? c_y? ll_x? lm mix hlw acc kc.2 with
    | none =>
      rw [hstep, foldl_bind_none] at hf
      exact absurd hf (by simp)
    | some acc' =>
      rw [hstep] at hf
      have h1 := adj_step_size _ _ _ _ _ _ _ _ _ _ hstep
      have h2 := ih acc' d hf
      simp only [List.length_cons]
      omega

/-- Inversion of `get_path_adjacent_leads`: a successful run is either the
empty-cluster early return or the sorted projection of corridor dicts built
by the classification fold. -/
theorem get_path_adjacent_leads_inversion (msqrt : ℚ → ℚ) (v_ego : ℚ)
    (md? : Option Md) (lane_width : ℚ) (clusters : List (ℤ × Track)) (mix : ℤ)
    (ll lc lr : List PathLead)
    (h : get_path_adjacent_leads msqrt v_ego md? lane_width clusters mix =
      some (ll, lc, lr)) :
    (ll = [] ∧ lc = [] ∧ lr = []) ∨
    ∃ (c_y? ll_x? : Option (List ℚ)) (lm : LeadMsg)
      (md_xy? : Option (List ℚ × List ℚ)) (dacc : AdjAcc),
      clusters.foldl (fun a? kc => a?.bind
        (fun a => adj_step msqrt md_xy? c_y? ll_x? lm mix (lane_width / 2) a kc.2))
        (some { left := [], center := [], right := [] }) = some dacc ∧
      ll = (List.insertionSort (fun a b : ℚ => a ≤ b)
        (dkeys dacc.left)).filterMap (dget dacc.left) ∧
      lr = (List.insertionSort (fun a b : ℚ => a ≤ b)
        (dkeys dacc.right)).filterMap (dget dacc.right) ∧
      lc = List.insertionSort (fun a b : PathLead => a.lead.dRel ≤ b.lead.dRel)
        (dacc.center.map Prod.snd) := by
  simp only [get_path_adjacent_leads] at h
  by_cases hcl : clusters.length = 0
  · rw [if_pos hcl] at h
    simp only [Option.some.injEq, Prod.mk.injEq] at h
    exact Or.inl ⟨h.1.symm, h.2.1.symm, h.2.2.symm⟩
  · rw [if_neg hcl] at h
    split at h
    · exact absurd h (by simp)
    · split at h
      · exact absurd h (by simp)
      · split at h
        · exact absurd h (by simp)
        · split at h
          · exact absurd h (by simp)
          · split at h
            · exact absurd h (by simp)
            · simp only [Option.some.injEq, Prod.mk.injEq] at h
              rename_i xa cy llx xb mdxy mdq md hcy hmp xc lm hl0 folded dacc hF
              exact Or.inr ⟨cy, llx, lm, mdxy, dacc, hF,
                h.1.symm, h.2.2.symm, h.2.1.symm⟩

theorem filterMap_dget_sorted (m : List (ℚ × PathLead))
    (hkv : ∀ kv ∈ m, kv.1 = |kv.2.dPath|) :
    List.Sorted (fun a b : PathLead => |a.dPath| ≤ |b.dPath|)
      ((List.insertionSort (fun a b : ℚ => a ≤ b) (dkeys m)).filterMap (dget m)) := by
  have hsk : List.Sorted (fun a b : ℚ => a ≤ b)
      (List.insertionSort (fun a b : ℚ => a ≤ b) (dkeys m)) :=
    List.sorted_insertionSort _ _
  refine List.pairwise_filterMap.mpr (hsk.imp_of_mem ?_)
  intro k1 k2 _ _ hle b hb b' hb'
  have e1 := hkv (k1, b) (mem_of_dget_eq_some m k1 b (Option.mem_def.mp hb))
  have e2 := hkv (k2, b') (mem_of_dget_eq_some m k2 b' (Option.mem_def.mp hb'))
  simp only at e1 e2
  rw [← e1, ← e2]
  exact hle

theorem mem_filterMap_dget (m : List (ℚ × PathLead)) (pl : PathLead)
    (h : pl ∈ (List.insertionSort (fun a b : ℚ => a ≤ b) (dkeys m)).filterMap (dget m)) :
    ∃ k, (k, pl) ∈ m := by
  obtain ⟨k, _, hget⟩ := List.mem_filterMap.mp h
  exact ⟨k, mem_of_dget_eq_some m k pl hget⟩

/-- C8. Every record in the emitted center list satisfies
`|dPath| < laneWidth/2 ∧ vLeadK > −1`; every record in the left list fails
the center condition and has `dPath < 0`; every record in the right list
fails the center condition and has `dPath ≥ 0`; and the left and right lists
are sorted by ascending `|dPath|` while the center list is sorted by
ascending `dRel`. -/
theorem path_classification_corridors (msqrt : ℚ → ℚ) (v_ego : ℚ) (md? : Option Md)
    (lane_width : ℚ) (clusters : List (ℤ × Track)) (mix : ℤ) (ll lc lr : List PathLead)
    (h : get_path_adjacent_leads msqrt v_ego md? lane_width clusters mix =
      some (ll, lc, lr)) :
    (∀ pl ∈ lc, |pl.dPath| < lane_width / 2 ∧ pl.lead.vLeadK > -1) ∧
    (∀ pl ∈ ll, ¬(|pl.dPath| < lane_width / 2 ∧ pl.lead.vLeadK > -1) ∧ pl.dPath < 0) ∧
    (∀ pl ∈ lr, ¬(|pl.dPath| < lane_width / 2 ∧ pl.lead.vLeadK > -1) ∧ ¬(pl.dPath < 0)) ∧
    List.Sorted (fun a b : PathLead => |a.dPath| ≤ |b.dPath|) ll ∧
    List.Sorted (fun a b : PathLead => |a.dPath| ≤ |b.dPath|) lr ∧
    List.Sorted (fun a b : PathLead => a.lead.dRel ≤ b.lead.dRel) lc := by
  rcases get_path_adjacent_leads_inversion msqrt v_ego md? lane_width clusters mix
      ll lc lr h with ⟨h1, h2, h3⟩ | ⟨c_y?, ll_x?, lm, md_xy?, dacc, hF, hll, hlr, hlc⟩
  · subst h1
    subst h2
    subst h3
    simp
  · have hinv : AdjInv (lane_width / 2) dacc := by
      refine adj_fold_inv msqrt md_xy? c_y? ll_x? lm mix (lane_width / 2) clusters
        { left := [], center := [], right := [] } dacc ?_ hF
      refine ⟨?_, ?_, ?_⟩ <;> intro kv hkv <;> simp at hkv
    obtain ⟨hc, hl, hr⟩ := hinv
    subst hll
    subst hlr
    subst hlc
    refine ⟨?_, ?_, ?_, ?_, ?_, ?_⟩
    · intro pl hpl
      rw [List.mem_insertionSort] at hpl
      obtain ⟨⟨k, v⟩, hkv, rfl⟩ := List.mem_map.mp hpl
      exact (hc (k, v) hkv).2
    · intro pl hpl
      obtain ⟨k, hk⟩ := mem_filterMap_dget _ _ hpl
      exact (hl (k, pl) hk).2
    · intro pl hpl
      obtain ⟨k, hk⟩ := mem_filterMap_dget _ _ hpl
      exact (hr (k, pl) hk).2
    · exact filterMap_dget_sorted _ (fun kv hkv => (hl kv hkv).1)
    · exact filterMap_dget_sorted _ (fun kv hkv => (hr kv hkv).1)
    · exact List.sorted_insertionSort _ _

/-- Witness for C8: a single straight-path track at `dRel = 10`,
`yRel = 0.5` lands in the center corridor, and the theorem's corridor and
ordering conclusions hold on the resulting lists. -/
theorem path_classification_corridors_witness :
    get_path_adjacent_leads (fun _ => 0) 0 (some pathMd) 3.6 [(1, trackNear)] 0 =
      some ([], [nearPathLead], []) ∧
    (∀ pl ∈ [nearPathLead], |pl.dPath| < (3.6 : ℚ) / 2 ∧ pl.lead.vLeadK > -1) ∧
    List.Sorted (fun a b : PathLead => a.lead.dRel ≤ b.lead.dRel) [nearPathLead] := by
  have hEq : get_path_adjacent_leads (fun _ => 0) 0 (some pathMd) 3.6 [(1, trackNear)] 0 =
      some ([], [nearPathLead], []) := by
    norm_num [get_path_adjacent_leads, compute_c_y, model_path_select, cluster_dPath,
      adj_step, interp, dinsert, dget, dkeys, pathMd, trackNear, sampleTrack, sampleLeadMsg,
      nearPathLead, Track.get_RadarState2_fields, Track.is_potential_fcw,
      List.insertionSort, List.orderedInsert, abs_neg, abs_div, abs_one, abs_two]
  obtain ⟨h1, _, _, _, _, h6⟩ := path_classification_corridors (fun _ => 0) 0 (some pathMd)
    3.6 [(1, trackNear)] 0 _ _ _ hEq
  exact ⟨hEq, h1, h6⟩

/-- C10. Corridor dicts are keyed by `|dPath|`, so the combined length of the
three emitted lists never exceeds the number of clusters classified, and with
two center tracks of exactly equal `|dPath|` only the later-processed track's
record survives: the two-track input yields a single center record, the one
built from the second track. -/
theorem corridor_key_collision :
    (∀ (msqrt : ℚ → ℚ) (v_ego : ℚ) (md? : Option Md) (lane_width : ℚ)
      (clusters : List (ℤ × Track)) (mix : ℤ) (ll lc lr : List PathLead),
      get_path_adjacent_leads msqrt v_ego md? lane_width clusters mix = some (ll, lc, lr) →
      ll.length + lc.length + lr.length ≤ clusters.length) ∧
    get_path_adjacent_leads (fun _ => 0) 0 (some pathMd) 3.6
        [(1, trackNear), (2, trackFar)] 0 =
      some ([], [farPathLead], []) := by
  constructor
  · intro msqrt v_ego md? lane_width clusters mix ll lc lr h
    rcases get_path_adjacent_leads_inversion msqrt v_ego md? lane_width clusters mix
        ll lc lr h with ⟨h1, h2, h3⟩ | ⟨c_y?, ll_x?, lm, md_xy?, dacc, hF, hll, hlr, hlc⟩
    · subst h1
      subst h2
      subst h3
      simp
    · have hsz := adj_fold_size msqrt md_xy? c_y? ll_x? lm mix (lane_width / 2) clusters
        { left := [], center := [], right := [] } dacc hF
      have e1 : ll.length ≤ dacc.left.length := by
        rw [hll]
        refine le_trans (List.length_filterMap_le _ _) ?_
        rw [List.length_insertionSort]
        simp [dkeys]
      have e2 : lr.length ≤ dacc.right.length := by
        rw [hlr]
        refine le_trans (List.length_filterMap_le _ _) ?_
        rw [List.length_insertionSort]
        simp [dkeys]
      have e3 : lc.length = dacc.center.length := by
        rw [hlc, List.length_insertionSort, List.length_map]
      simp only [adjSize] at hsz
      simp only [AdjAcc.left, AdjAcc.center, AdjAcc.right, List.length_nil] at hsz
      omega
  · norm_num [get_path_adjacent_leads, compute_c_y, model_path_select, cluster_dPath,
      adj_step, interp, dinsert, dget, dkeys, pathMd, trackNear, trackFar, sampleTrack,
      sampleLeadMsg, farPathLead, Track.get_RadarState2_fields, Track.is_potential_fcw,
      List.insertionSort, List.orderedInsert, abs_neg, abs_div, abs_one, abs_two]

/-- Witness for C10: the bound of the theorem applied at its own two-track
collision input, where the three lists have combined length 1 < 2. -/
theorem corridor_key_collision_witness :
    ([] : List PathLead).length + [farPathLead].length + ([] : List PathLead).length ≤
      ([(1, trackNear), (2, trackFar)] : List (ℤ × Track)).length :=
  corridor_key_collision.1 (fun _ => 0) 0 (some pathMd) 3.6
    [(1, trackNear), (2, trackFar)] 0 _ _ _ corridor_key_collision.2

end Radard
